import Mathlib

/-!
Verification of the `eot` (EVM Opcode Table) gas-analysis core.

This file shallowly embeds the data model and the operations of the
repository's gas subsystem (`src/gas/context.rs`, `src/gas/calculator.rs`,
`src/lib.rs`) and proves the specification claims about them.

Conventions of the embedding:
* `u64`/`usize` values are modelled as `Nat`, with explicit wrap-around
  (`% 2^w`) at the arithmetic operations whose Rust counterparts can
  overflow on representable inputs: the word-square and the delta
  subtraction of the memory-expansion formula and the call-window offset
  sums (release-build wrapping semantics; debug builds panic instead).
  The `u8` field `call_depth` likewise wraps modulo 256, because the
  claims probe its behaviour at the type's maximum.
* Rust `Vec<u8>` byte strings (addresses, storage keys) are `List Nat`.
* `HashSet` fields are lists with membership-faithful duplicate-free
  insertion; only `insert` and `contains` are ever used by the source.
* Fallible Rust functions returning `Result<T, String>` become
  `Except String T`; a Rust panic (out-of-bounds slice index, which the
  source can hit in `update_context`) is modelled by `Option`, with
  `none` denoting the panic.
* The per-fork literal opcode tables and the two byte-string helpers
  `from_vec_storage_key` / `from_vec_address` are declared by the
  repository's calculator but their definitions are not part of the core
  sources; they are modelled from the spec (marked below) and, where
  possible, theorems are stated for an arbitrary table.
-/

namespace Eot

/-- Ethereum hard fork identifiers, in the chronological order declared in
`src/lib.rs`; the derived Rust `Ord` compares declaration order. -/
inductive Fork where
  | Frontier
  | IceAge
  | Homestead
  | DaoFork
  | TangerineWhistle
  | SpuriousDragon
  | Byzantium
  | Constantinople
  | Petersburg
  | Istanbul
  | MuirGlacier
  | Berlin
  | London
  | Altair
  | ArrowGlacier
  | GrayGlacier
  | Bellatrix
  | Paris
  | Shanghai
  | Capella
  | Cancun
  | Deneb
deriving DecidableEq, Repr

/-- Position of a fork in the declared chronological order. -/
def Fork.idx : Fork → Nat
  | .Frontier => 0
  | .IceAge => 1
  | .Homestead => 2
  | .DaoFork => 3
  | .TangerineWhistle => 4
  | .SpuriousDragon => 5
  | .Byzantium => 6
  | .Constantinople => 7
  | .Petersburg => 8
  | .Istanbul => 9
  | .MuirGlacier => 10
  | .Berlin => 11
  | .London => 12
  | .Altair => 13
  | .ArrowGlacier => 14
  | .GrayGlacier => 15
  | .Bellatrix => 16
  | .Paris => 17
  | .Shanghai => 18
  | .Capella => 19
  | .Cancun => 20
  | .Deneb => 21

/-- The derived `<=` of `Fork` (declaration order). -/
def Fork.le (a b : Fork) : Bool := decide (a.idx ≤ b.idx)

theorem Fork.le_iff (a b : Fork) : Fork.le a b = true ↔ a.idx ≤ b.idx := by
  simp [Fork.le]

theorem Fork.le_trans {a b c : Fork} (h1 : Fork.le a b = true)
    (h2 : Fork.le b c = true) : Fork.le a c = true := by
  rw [Fork.le_iff] at *
  exact Nat.le_trans h1 h2

/-- EVM opcode groups (`src/lib.rs`). -/
inductive Group where
  | StopArithmetic
  | ComparisonBitwiseLogic
  | Sha3
  | EnvironmentalInformation
  | BlockInformation
  | StackMemoryStorageFlow
  | Push
  | Duplication
  | Exchange
  | Logging
  | System
deriving DecidableEq, Repr

/-- Opcode metadata record (`src/lib.rs`, struct `OpcodeMetadata`).
Numeric fields (`u8`, `u16`) are `Nat`. -/
structure OpcodeMetadata where
  opcode : Nat
  name : String
  gas_cost : Nat
  stack_inputs : Nat
  stack_outputs : Nat
  description : String
  introduced_in : Fork
  group : Group
  eip : Option Nat
  gas_history : List (Fork × Nat)
deriving DecidableEq, Repr

/-- Big-endian byte string of a `u64` value (`u64::to_be_bytes`). -/
def u64ToBeBytes (n : Nat) : List Nat :=
  let m := n % 2 ^ 64
  [m / 2 ^ 56 % 256, m / 2 ^ 48 % 256, m / 2 ^ 40 % 256, m / 2 ^ 32 % 256,
   m / 2 ^ 24 % 256, m / 2 ^ 16 % 256, m / 2 ^ 8 % 256, m % 256]

/-- The 32-byte storage key built inline by `calculate_sload_cost`
(`src/gas/calculator.rs` lines 109-111): 24 zero bytes followed by the
8 big-endian bytes of the `u64` operand. -/
def fullKey32 (n : Nat) : List Nat := List.replicate 24 0 ++ u64ToBeBytes n

/-- Modelled from the spec: `ExecutionContext::from_vec_storage_key` is
called by the calculator but not defined in the core sources. The spec's
data model (§3, §4.2) keys warm storage by 32-byte keys produced from the
`u64` operand, made warm by `mark_storage_accessed` and observed by
`is_storage_warm`; consistently with the inline padding in
`calculate_sload_cost`, the byte string is left-padded with zeros to 32
bytes. -/
def fromVecStorageKey (bytes : List Nat) : List Nat :=
  List.replicate (32 - bytes.length) 0 ++ bytes

/-- Modelled from the spec: `ExecutionContext::from_vec_address` is called
by the calculator but not defined in the core sources. The spec (§3, §4.2)
uses 20-byte addresses; the 8 supplied bytes are left-padded with zeros to
20 bytes. Only its injectivity on 8-byte inputs matters to the claims. -/
def fromVecAddress (bytes : List Nat) : List Nat :=
  List.replicate (20 - bytes.length) 0 ++ bytes

/-- Execution context (`src/gas/context.rs`, struct `ExecutionContext`). -/
structure ExecutionContext where
  memory_size : Nat
  accessed_storage_keys : List (List Nat × List Nat)
  accessed_addresses : List (List Nat)
  call_depth : Nat
  is_static : Bool
  gas_price : Nat
  gas_limit : Nat
  gas_remaining : Nat
  current_address : List Nat
  caller_address : List Nat
  call_value : Nat
deriving DecidableEq, Repr

namespace ExecutionContext

/-- `ExecutionContext::new` (`src/gas/context.rs`). -/
def new : ExecutionContext where
  memory_size := 0
  accessed_storage_keys := []
  accessed_addresses := []
  call_depth := 0
  is_static := false
  gas_price := 20000000000
  gas_limit := 30000000
  gas_remaining := 1000000
  current_address := List.replicate 20 0
  caller_address := List.replicate 20 0
  call_value := 0

/-- Membership-faithful `HashSet::insert`. -/
def insertSet {α : Type} [DecidableEq α] (x : α) (l : List α) : List α :=
  if x ∈ l then l else x :: l

theorem mem_insertSet {α : Type} [DecidableEq α] (x y : α) (l : List α) :
    y ∈ insertSet x l ↔ y = x ∨ y ∈ l := by
  unfold insertSet
  split
  · constructor
    · exact fun h => Or.inr h
    · rintro (rfl | h)
      · assumption
      · assumption
  · simp [List.mem_cons]

/-- `mark_storage_accessed`. -/
def markStorageAccessed (c : ExecutionContext) (address key : List Nat) :
    ExecutionContext :=
  { c with accessed_storage_keys := insertSet (address, key) c.accessed_storage_keys }

/-- `mark_address_accessed`. -/
def markAddressAccessed (c : ExecutionContext) (address : List Nat) :
    ExecutionContext :=
  { c with accessed_addresses := insertSet address c.accessed_addresses }

/-- `is_storage_warm`. -/
def isStorageWarm (c : ExecutionContext) (address key : List Nat) : Bool :=
  decide ((address, key) ∈ c.accessed_storage_keys)

/-- `is_address_warm`. -/
def isAddressWarm (c : ExecutionContext) (address : List Nat) : Bool :=
  decide (address ∈ c.accessed_addresses)

/-- `expand_memory`. -/
def expandMemory (c : ExecutionContext) (new_size : Nat) : ExecutionContext :=
  if new_size > c.memory_size then { c with memory_size := new_size } else c

/-- `enter_call`: `self.call_depth += 1` on a `u8`, so the stored value
wraps modulo 256 at 255 (overflow of the 8-bit counter). -/
def enterCall (c : ExecutionContext) : ExecutionContext :=
  { c with call_depth := (c.call_depth + 1) % 256 }

/-- `exit_call`: guarded decrement, floor 0. -/
def exitCall (c : ExecutionContext) : ExecutionContext :=
  if c.call_depth > 0 then { c with call_depth := c.call_depth - 1 } else c

/-- `consume_gas`: returns the `Result` and the post-state of `&mut self`. -/
def consumeGas (c : ExecutionContext) (amount : Nat) :
    Except String Unit × ExecutionContext :=
  if c.gas_remaining < amount then
    (Except.error "Out of gas", c)
  else
    (Except.ok (), { c with gas_remaining := c.gas_remaining - amount })

end ExecutionContext

/-- The nine forks registered by `OpcodeRegistry::new` (`src/lib.rs`). -/
def registeredForks : List Fork :=
  [.Frontier, .Homestead, .Byzantium, .Constantinople, .Istanbul,
   .Berlin, .London, .Shanghai, .Cancun]

/-- `OpcodeRegistry::get_opcodes` (`src/lib.rs` lines 276-289): union of the
own table of every registered fork `<= fork`, later entries overriding
earlier ones (`HashMap::extend`). The literal per-fork tables are not part
of the core sources, so they are a parameter `tables`. The map is an
association list in which the last binding of a byte is the visible one. -/
def getOpcodes (tables : Fork → List (Nat × OpcodeMetadata)) (fork : Fork) :
    List (Nat × OpcodeMetadata) :=
  (registeredForks.filter (fun f => Fork.le f fork)).foldl
    (fun acc f => acc ++ tables f) []

/-- Key membership in an association-list map (`HashMap::contains_key`). -/
def containsKey (m : List (Nat × OpcodeMetadata)) (b : Nat) : Bool :=
  m.any (fun p => p.1 == b)

/-- Lookup in an association-list map (`HashMap::get`): the last binding of
the byte is the visible one, matching `extend` overriding semantics. -/
def lookupByte (m : List (Nat × OpcodeMetadata)) (b : Nat) :
    Option OpcodeMetadata :=
  (m.reverse.find? (fun p => p.1 == b)).map (fun p => p.2)

/-- `DynamicGasCalculator::get_base_gas_cost` (`src/gas/calculator.rs`
lines 40-49): last `gas_history` entry whose fork is `<= fork`, else the
metadata base cost. -/
def getBaseGasCost (m : OpcodeMetadata) (fork : Fork) : Nat :=
  ((m.gas_history.reverse.find? (fun p => Fork.le p.1 fork)).map
    (fun p => p.2)).getD m.gas_cost

/-- Inner `memory_cost` of `calculate_memory_expansion_cost`
(`src/gas/calculator.rs` lines 263-268): `div_ceil(size,32)` words,
`3*words + words*words/512`. The `usize` square `words * words` wraps
modulo 2^64 once `words >= 2^32` (release semantics; debug builds panic),
so the wrap is modelled explicitly; the linear term and the final sum
cannot overflow for any `usize` size. -/
def memory_cost (size : Nat) : Nat :=
  let size_in_words := (size + 31) / 32
  size_in_words * 3 + size_in_words * size_in_words % 2 ^ 64 / 512

/-- `calculate_memory_expansion_cost` (`src/gas/calculator.rs`
lines 262-275). The `u64` subtraction `memory_cost(new) -
memory_cost(old)` can underflow once the wrapped square makes
`memory_cost` non-monotone, so it is modelled as wrapping subtraction
modulo 2^64 (release semantics; debug builds panic); both `memory_cost`
values are below 2^64 for `usize` sizes. -/
def calculateMemoryExpansionCost (old_size new_size : Nat) : Nat :=
  if new_size ≤ old_size then 0
  else (memory_cost new_size + 2 ^ 64 - memory_cost old_size) % 2 ^ 64

/-- `calculate_sload_cost` (`src/gas/calculator.rs` lines 98-124). -/
def calculateSloadCost (fork : Fork) (context : ExecutionContext)
    (operands : List Nat) : Except String Nat :=
  if Fork.le .Berlin fork then
    match operands with
    | [] => .error "SLOAD requires storage key operand"
    | k :: _ =>
      if context.isStorageWarm context.current_address (fullKey32 k) then
        .ok 100
      else
        .ok 2100
  else
    .ok 800

/-- `calculate_sstore_cost` (`src/gas/calculator.rs` lines 127-164). -/
def calculateSstoreCost (fork : Fork) (context : ExecutionContext)
    (operands : List Nat) : Except String Nat :=
  if operands.length < 2 then
    .error "SSTORE requires key and value operands"
  else
    let key := fromVecStorageKey (u64ToBeBytes (operands.headD 0))
    if Fork.le .Berlin fork then
      if ! context.isStorageWarm context.current_address key then
        .ok 2100
      else
        .ok 0
    else if Fork.le .Istanbul fork then
      .ok 0
    else if Fork.le .Constantinople fork then
      .ok 0
    else
      .ok 0

/-- `calculate_tload_cost` (`src/gas/calculator.rs` lines 167-180). -/
def calculateTloadCost (fork : Fork) (operands : List Nat) :
    Except String Nat :=
  if Fork.le .Cancun fork then
    if operands.isEmpty then
      .error "TLOAD requires storage key operand"
    else
      .ok 100
  else
    .error "TLOAD not available before Cancun fork"

/-- `calculate_tstore_cost` (`src/gas/calculator.rs` lines 183-196). -/
def calculateTstoreCost (fork : Fork) (operands : List Nat) :
    Except String Nat :=
  if Fork.le .Cancun fork then
    if operands.length < 2 then
      .error "TSTORE requires key and value operands"
    else
      .ok 100
  else
    .error "TSTORE not available before Cancun fork"

/-- `calculate_memory_cost` (`src/gas/calculator.rs` lines 199-226). -/
def calculateMemoryCost (opcode : Nat) (context : ExecutionContext)
    (operands : List Nat) : Except String Nat :=
  match operands with
  | [] => .error "Memory operation requires offset operand"
  | offset :: _ =>
    let size? : Option Nat :=
      if opcode = 0x51 then some 32
      else if opcode = 0x52 then some 32
      else if opcode = 0x53 then some 1
      else none
    match size? with
    | none => .error "Unknown memory opcode"
    | some size =>
      let new_memory_size := offset + size
      if new_memory_size > context.memory_size then
        .ok (calculateMemoryExpansionCost context.memory_size new_memory_size)
      else
        .ok 0

/-- `calculate_mcopy_cost` (`src/gas/calculator.rs` lines 229-259). -/
def calculateMcopyCost (fork : Fork) (context : ExecutionContext)
    (operands : List Nat) : Except String Nat :=
  if ! Fork.le .Cancun fork then
    .error "MCOPY not available before Cancun fork"
  else if operands.length < 3 then
    .error "MCOPY requires dst, src, and size operands"
  else
    let dst_offset := operands.headD 0
    let size := (operands.get? 2).getD 0
    let new_memory_size := dst_offset + size
    let expansion_cost :=
      if new_memory_size > context.memory_size then
        calculateMemoryExpansionCost context.memory_size new_memory_size
      else 0
    let words := (size + 31) / 32
    .ok (expansion_cost + words * 3)

/-- `calculate_call_cost` (`src/gas/calculator.rs` lines 278-336). The
`usize` window sums `args_offset + args_size` and `ret_offset + ret_size`
wrap modulo 2^64 on overflow (release semantics; debug builds panic), so
the wrap is modelled explicitly. -/
def calculateCallCost (fork : Fork) (opcode : Nat)
    (context : ExecutionContext) (operands : List Nat) : Except String Nat :=
  if operands.length < 7 then
    .error "CALL requires at least 7 operands"
  else
    let target_address := fromVecAddress (u64ToBeBytes ((operands.get? 1).getD 0))
    let value := if opcode = 0xf1 then (operands.get? 2).getD 0 else 0
    let cost1 :=
      if Fork.le .Berlin fork then
        if context.isAddressWarm target_address then 0 else 2600
      else 0
    let cost2 :=
      if value > 0 then
        9000 + (if ! context.isAddressWarm target_address then 25000 else 0)
      else 0
    let cost3 :=
      if operands.length ≥ 7 then
        let args_offset := (operands.get? 3).getD 0
        let args_size := (operands.get? 4).getD 0
        let ret_offset := (operands.get? 5).getD 0
        let ret_size := (operands.get? 6).getD 0
        let max_memory_access :=
          max ((args_offset + args_size) % 2 ^ 64)
              ((ret_offset + ret_size) % 2 ^ 64)
        if max_memory_access > context.memory_size then
          calculateMemoryExpansionCost context.memory_size max_memory_access
        else 0
      else 0
    .ok (cost1 + cost2 + cost3)

/-- `calculate_account_access_cost` (`src/gas/calculator.rs`
lines 339-354). -/
def calculateAccountAccessCost (fork : Fork) (context : ExecutionContext)
    (operands : List Nat) : Except String Nat :=
  if Fork.le .Berlin fork ∧ ¬ operands.isEmpty then
    let address := fromVecAddress (u64ToBeBytes (operands.headD 0))
    if context.isAddressWarm address then .ok 100 else .ok 2600
  else
    .ok 0

/-- `calculate_copy_cost` (`src/gas/calculator.rs` lines 357-384):
fewer than three operands yields `Ok(0)`, not an error. -/
def calculateCopyCost (context : ExecutionContext) (operands : List Nat) :
    Except String Nat :=
  if operands.length < 3 then
    .ok 0
  else
    let dest_offset := operands.headD 0
    let size := (operands.get? 2).getD 0
    let new_memory_size := dest_offset + size
    let expansion_cost :=
      if new_memory_size > context.memory_size then
        calculateMemoryExpansionCost context.memory_size new_memory_size
      else 0
    let words := (size + 31) / 32
    .ok (expansion_cost + words * 3)

/-- `calculate_create_cost` (`src/gas/calculator.rs` lines 387-423):
fewer than three operands yields `Ok(0)`, not an error. -/
def calculateCreateCost (fork : Fork) (opcode : Nat)
    (context : ExecutionContext) (operands : List Nat) : Except String Nat :=
  if operands.length < 3 then
    .ok 0
  else
    let offset := (operands.get? 1).getD 0
    let size := (operands.get? 2).getD 0
    let base := 32000
    let create2_cost := if opcode = 0xf5 then ((size + 31) / 32) * 6 else 0
    let initcode_cost := if Fork.le .Shanghai fork then ((size + 31) / 32) * 2 else 0
    let new_memory_size := offset + size
    let expansion_cost :=
      if new_memory_size > context.memory_size then
        calculateMemoryExpansionCost context.memory_size new_memory_size
      else 0
    .ok (base + create2_cost + initcode_cost + expansion_cost)

/-- `calculate_keccak256_cost` (`src/gas/calculator.rs` lines 426-451):
fewer than two operands yields `Ok(0)`, not an error. -/
def calculateKeccak256Cost (context : ExecutionContext)
    (operands : List Nat) : Except String Nat :=
  if operands.length < 2 then
    .ok 0
  else
    let offset := operands.headD 0
    let size := (operands.get? 1).getD 0
    let new_memory_size := offset + size
    let expansion_cost :=
      if new_memory_size > context.memory_size then
        calculateMemoryExpansionCost context.memory_size new_memory_size
      else 0
    let words := (size + 31) / 32
    .ok (expansion_cost + words * 6)

/-- `calculate_log_cost` (`src/gas/calculator.rs` lines 454-482):
fewer than two operands yields `Ok(0)`, not an error. -/
def calculateLogCost (opcode : Nat) (context : ExecutionContext)
    (operands : List Nat) : Except String Nat :=
  if operands.length < 2 then
    .ok 0
  else
    let offset := operands.headD 0
    let size := (operands.get? 1).getD 0
    let topic_count := opcode - 0xa0
    let new_memory_size := offset + size
    let expansion_cost :=
      if new_memory_size > context.memory_size then
        calculateMemoryExpansionCost context.memory_size new_memory_size
      else 0
    .ok (expansion_cost + (topic_count * 375 + size * 8))

/-- `calculate_dynamic_cost` dispatcher (`src/gas/calculator.rs`
lines 52-95). -/
def calculateDynamicCost (fork : Fork) (opcode : Nat)
    (context : ExecutionContext) (operands : List Nat) : Except String Nat :=
  if opcode = 0x54 then calculateSloadCost fork context operands
  else if opcode = 0x55 then calculateSstoreCost fork context operands
  else if opcode = 0x5c then calculateTloadCost fork operands
  else if opcode = 0x5d then calculateTstoreCost fork operands
  else if 0x51 ≤ opcode ∧ opcode ≤ 0x53 then
    calculateMemoryCost opcode context operands
  else if opcode = 0x5e then calculateMcopyCost fork context operands
  else if opcode = 0xf1 ∨ opcode = 0xf2 ∨ opcode = 0xf4 ∨ opcode = 0xfa then
    calculateCallCost fork opcode context operands
  else if opcode = 0x31 ∨ opcode = 0x3b ∨ opcode = 0x3c ∨ opcode = 0x3f then
    calculateAccountAccessCost fork context operands
  else if opcode = 0x37 ∨ opcode = 0x39 ∨ opcode = 0x3e then
    calculateCopyCost context operands
  else if opcode = 0xf0 ∨ opcode = 0xf5 then
    calculateCreateCost fork opcode context operands
  else if opcode = 0x20 then calculateKeccak256Cost context operands
  else if 0xa0 ≤ opcode ∧ opcode ≤ 0xa4 then
    calculateLogCost opcode context operands
  else .ok 0

/-- `DynamicGasCalculator::calculate_gas_cost` (`src/gas/calculator.rs`
lines 22-37), with the fork-effective opcode map passed as a function
(the registry's literal tables are not part of the core sources). -/
def calculateGasCost (table : Nat → Option OpcodeMetadata) (fork : Fork)
    (opcode : Nat) (context : ExecutionContext) (operands : List Nat) :
    Except String Nat :=
  match table opcode with
  | none => .error "Unknown opcode"
  | some metadata =>
    (calculateDynamicCost fork opcode context operands).map
      (fun dynamic => getBaseGasCost metadata fork + dynamic)

/-- `update_context` (`src/gas/calculator.rs` lines 528-591). The Rust
`match` arms are tried in source order and only the first matching arm
runs. The third arm indexes `operands[1]` under a guard that only demands
a non-empty operand list; the resulting possible out-of-bounds panic is
modelled by `none`. The seventh arm (calls with at least two operands) is
unreachable, because the third arm already captures every call opcode
with a non-empty operand list; it is kept for fidelity. -/
def updateContext (context : ExecutionContext) (opcode : Nat)
    (operands : List Nat) : Option ExecutionContext :=
  if (opcode = 0x54 ∨ opcode = 0x55) ∧ operands ≠ [] then
    let key := fromVecStorageKey (u64ToBeBytes (operands.headD 0))
    some (context.markStorageAccessed context.current_address key)
  else if (opcode = 0x5c ∨ opcode = 0x5d) ∧ operands ≠ [] then
    some context
  else if (opcode = 0x31 ∨ opcode = 0x3b ∨ opcode = 0x3c ∨ opcode = 0x3f ∨
      opcode = 0xf1 ∨ opcode = 0xf2 ∨ opcode = 0xf4 ∨ opcode = 0xfa) ∧
      operands ≠ [] then
    match operands.get? 1 with
    | none => none
    | some a => some (context.markAddressAccessed (fromVecAddress (u64ToBeBytes a)))
  else if (0x51 ≤ opcode ∧ opcode ≤ 0x53) ∧ operands ≠ [] then
    let offset := operands.headD 0
    let size :=
      if opcode = 0x51 then 32
      else if opcode = 0x52 then 32
      else if opcode = 0x53 then 1
      else 0
    some (context.expandMemory (offset + size))
  else if opcode = 0x5e ∧ operands.length ≥ 3 then
    some (context.expandMemory (operands.headD 0 + (operands.get? 2).getD 0))
  else if (opcode = 0x37 ∨ opcode = 0x39 ∨ opcode = 0x3e) ∧ operands.length ≥ 3 then
    some (context.expandMemory (operands.headD 0 + (operands.get? 2).getD 0))
  else if (opcode = 0xf1 ∨ opcode = 0xf2 ∨ opcode = 0xf4 ∨ opcode = 0xfa) ∧
      operands.length ≥ 2 then
    some ((context.markAddressAccessed
      (fromVecAddress (u64ToBeBytes ((operands.get? 1).getD 0)))).enterCall)
  else
    some context

/-- `GasAnalysisResult` (`src/gas/analysis.rs`), restricted to the fields
the analysis computes from the gas formulas; the advisory `warnings` and
`optimizations` string lists are presentation-only and never feed back
into gas, context, or control flow. -/
structure GasAnalysisResult where
  total_gas : Nat
  breakdown : List (Nat × Nat)
  context : ExecutionContext
deriving DecidableEq, Repr

/-- The loop body of `analyze_sequence_gas` (`src/gas/calculator.rs`
lines 485-525): fold the entries, charging each opcode against the context
reached so far and then applying its context side effects. An `error`
from the cost computation aborts the fold; `none` is a panic inside
`update_context`. -/
def runSeq (table : Nat → Option OpcodeMetadata) (fork : Fork)
    (context : ExecutionContext) (total_gas : Nat)
    (breakdown : List (Nat × Nat)) :
    List (Nat × List Nat) → Option (Except String GasAnalysisResult)
  | [] => some (.ok ⟨total_gas, breakdown, context⟩)
  | (opcode, operands) :: rest =>
    match calculateGasCost table fork opcode context operands with
    | .error e => some (.error e)
    | .ok gas_cost =>
      match updateContext context opcode operands with
      | none => none
      | some context' =>
        runSeq table fork context' (total_gas + gas_cost)
          (breakdown ++ [(opcode, gas_cost)]) rest

/-- `DynamicGasCalculator::analyze_sequence_gas`: fresh context, running
total seeded with the 21000 base transaction cost. -/
def analyzeSequenceGas (table : Nat → Option OpcodeMetadata) (fork : Fork)
    (opcodes : List (Nat × List Nat)) :
    Option (Except String GasAnalysisResult) :=
  runSeq table fork ExecutionContext.new 21000 [] opcodes

/-- The context projection of the `analyze_sequence_gas` loop: the
execution context after a prefix of the sequence, with the same abort
behaviour (first cost error, or a panic in `update_context`). -/
def runCtx (table : Nat → Option OpcodeMetadata) (fork : Fork)
    (context : ExecutionContext) :
    List (Nat × List Nat) → Option (Except String ExecutionContext)
  | [] => some (.ok context)
  | (opcode, operands) :: rest =>
    match calculateGasCost table fork opcode context operands with
    | .error e => some (.error e)
    | .ok _ =>
      match updateContext context opcode operands with
      | none => none
      | some context' => runCtx table fork context' rest

/-! ## Specification-side definitions

These follow the wording of the spec and of the claims; the theorems below
compare them with the definitions translated from the source. -/

/-- Spec wording for the fork-effective base cost (§4.1): pick the last
entry in `gas_history` whose fork is at most the target fork; fall back to
the metadata's base cost if none qualifies. -/
def effectiveGasCostSpec (m : OpcodeMetadata) (fork : Fork) : Nat :=
  match (m.gas_history.filter (fun p => Fork.le p.1 fork)).getLast? with
  | some p => p.2
  | none => m.gas_cost

/-- A prefix of a sequence touched storage key `k` (as a `u64` value):
some `SLOAD`/`SSTORE` entry with a non-empty operand list has `k` as its
first operand. These are exactly the entries whose context side effect
marks the slot warm. -/
def storageTouched (entries : List (Nat × List Nat)) (k : Nat) : Bool :=
  entries.any (fun e =>
    (e.1 == 0x54 || e.1 == 0x55) && ! e.2.isEmpty &&
      (e.2.headD 0 % 2 ^ 64 == k % 2 ^ 64))

/-- A minimal metadata record for witnesses. -/
def mkMeta (b g : Nat) (hist : List (Fork × Nat)) : OpcodeMetadata where
  opcode := b
  name := "OP"
  gas_cost := g
  stack_inputs := 0
  stack_outputs := 0
  description := ""
  introduced_in := .Frontier
  group := .StopArithmetic
  eip := none
  gas_history := hist

/-- A small concrete fork-effective opcode map used by witnesses: every
opcode the witnesses exercise is present with base cost 5. -/
def testTable : Nat → Option OpcodeMetadata := fun b =>
  if b = 0x54 ∨ b = 0x55 ∨ b = 0x20 ∨ b = 0x31 ∨ b = 0xf1 ∨ b = 0x01 then
    some (mkMeta b 5 [])
  else
    none

/-! ## Helper lemmas -/

theorem find?_eq_head?_of_filter {α : Type} (p : α → Bool) (l : List α) :
    l.find? p = (l.filter p).head? := by
  induction l with
  | nil => rfl
  | cons a l ih =>
    by_cases h : p a
    · rw [List.find?_cons_of_pos _ h, List.filter_cons_of_pos h]
      rfl
    · rw [List.find?_cons_of_neg _ h, List.filter_cons_of_neg h, ih]

/-- The exact memory-cost formula of the spec (§4.3) and of claim C2:
`cost s = 3 * ceil(s/32) + floor(ceil(s/32)^2 / 512)`, in unbounded
arithmetic. -/
def memoryCostSpec (s : Nat) : Nat :=
  3 * ((s + 31) / 32) + ((s + 31) / 32) ^ 2 / 512

theorem memoryCostSpec_mono {a b : Nat} (h : a ≤ b) :
    memoryCostSpec a ≤ memoryCostSpec b := by
  unfold memoryCostSpec
  have hw : (a + 31) / 32 ≤ (b + 31) / 32 :=
    Nat.div_le_div_right (Nat.add_le_add_right h 31)
  rw [pow_two, pow_two]
  exact Nat.add_le_add (Nat.mul_le_mul_left 3 hw)
    (Nat.div_le_div_right (Nat.mul_le_mul hw hw))

/-- Below 2^37 - 32 bytes the word count stays below 2^32, the `usize`
square cannot wrap, and `memory_cost` agrees with the exact formula. -/
theorem memory_cost_eq_spec {s : Nat} (h : s ≤ 2 ^ 37 - 32) :
    memory_cost s = memoryCostSpec s := by
  simp only [memory_cost, memoryCostSpec]
  have hw : (s + 31) / 32 < 2 ^ 32 := by omega
  have hsq : (s + 31) / 32 * ((s + 31) / 32) < 2 ^ 64 := by
    have h2 : (2 : Nat) ^ 64 = 2 ^ 32 * 2 ^ 32 := by norm_num
    rw [h2]
    exact Nat.mul_lt_mul_of_lt_of_lt hw hw
  rw [Nat.mod_eq_of_lt hsq, pow_two, Nat.mul_comm ((s + 31) / 32) 3]

theorem memoryCostSpec_lt {s : Nat} (h : s ≤ 2 ^ 37 - 32) :
    memoryCostSpec s < 2 ^ 64 := by
  unfold memoryCostSpec
  have hw : (s + 31) / 32 < 2 ^ 32 := by omega
  have hsq : ((s + 31) / 32) ^ 2 < 2 ^ 64 := by
    have h2 : (2 : Nat) ^ 64 = 2 ^ 32 * 2 ^ 32 := by norm_num
    rw [pow_two, h2]
    exact Nat.mul_lt_mul_of_lt_of_lt hw hw
  have hq : ((s + 31) / 32) ^ 2 / 512 ≤ ((s + 31) / 32) ^ 2 :=
    Nat.div_le_self _ _
  omega

/-! ## Claim theorems -/

/-- Counterexample to claim C2 as stated: at new size 2^40 (a
representable `usize`) the word count is 2^35, the source's `usize`
square wraps to 0 modulo 2^64, and the charge from a zero-sized memory is
3 * 2^35, whereas the claim's exact formula demands 3 * 2^35 + 2^61. -/
theorem memory_expansion_cost_c2_counterexample :
    calculateMemoryExpansionCost 0 (2 ^ 40) = 3 * 2 ^ 35 ∧
    memoryCostSpec (2 ^ 40) = 3 * 2 ^ 35 + 2 ^ 61 ∧
    ((calculateMemoryExpansionCost 0 (2 ^ 40) : ℤ) ≠
      max 0 ((memoryCostSpec (2 ^ 40) : ℤ) - (memoryCostSpec 0 : ℤ))) := by
  refine ⟨by decide, by decide, by decide⟩

/-- Claim C2 (amended): for old and new sizes of at most 2^37 - 32 bytes
(word counts below 2^32, where the `usize` square cannot overflow), the
memory-expansion charge equals `max 0 (cost new - cost old)` with
`cost s = 3 * ceil(s/32) + floor(ceil(s/32)^2 / 512)`, and `memory_cost`
agrees with that exact formula; in particular `cost 0 = 0` and
`cost 32 = 3`. For larger representable sizes the squared word count
wraps modulo 2^64 (release builds; debug builds panic) and the charge
diverges from the formula. -/
theorem memory_expansion_cost_c2_amended :
    ∀ old_size new_size : Nat,
      old_size ≤ 2 ^ 37 - 32 → new_size ≤ 2 ^ 37 - 32 →
      ((calculateMemoryExpansionCost old_size new_size : ℤ) =
        max 0 ((memoryCostSpec new_size : ℤ) - (memoryCostSpec old_size : ℤ))) ∧
      memory_cost new_size = memoryCostSpec new_size ∧
      memory_cost 0 = 0 ∧ memory_cost 32 = 3 := by
  intro o n ho hn
  refine ⟨?_, memory_cost_eq_spec hn, by decide, by decide⟩
  unfold calculateMemoryExpansionCost
  by_cases h : n ≤ o
  · have hc := memoryCostSpec_mono h
    have h2 : (memoryCostSpec n : ℤ) - (memoryCostSpec o : ℤ) ≤ 0 :=
      sub_nonpos.mpr (by exact_mod_cast hc)
    rw [if_pos h, max_eq_left h2]
    simp
  · have hc := memoryCostSpec_mono (Nat.le_of_not_le h)
    have h2 : (0 : ℤ) ≤ (memoryCostSpec n : ℤ) - (memoryCostSpec o : ℤ) :=
      sub_nonneg.mpr (by exact_mod_cast hc)
    have hlt : memoryCostSpec n < 2 ^ 64 := memoryCostSpec_lt hn
    rw [if_neg h, memory_cost_eq_spec hn, memory_cost_eq_spec ho]
    have hwrap : (memoryCostSpec n + 2 ^ 64 - memoryCostSpec o) % 2 ^ 64 =
        memoryCostSpec n - memoryCostSpec o := by
      omega
    rw [hwrap, Nat.cast_sub hc, max_eq_right h2]

/-- Witness for C2 (amended): expanding memory from 0 to the spec's
1,000,000-byte fixture charges 3*31250 + 31250^2/512 = 2001098, and
`memory_cost 32 = 3`. -/
theorem memory_expansion_cost_c2_witness :
    (calculateMemoryExpansionCost 0 1000000 : ℤ) = 2001098 ∧
    memory_cost 1000000 = 2001098 ∧ memory_cost 32 = 3 := by
  have h := memory_expansion_cost_c2_amended 0 1000000 (by decide) (by decide)
  refine ⟨?_, ?_, h.2.2.2⟩
  · rw [h.1]
    decide
  · rw [h.2.1]
    decide

/-- Claim C7: the fork-effective base gas cost computed by
`get_base_gas_cost` equals the cost of the last `gas_history` entry whose
fork is at most the target fork, with the metadata's base `gas_cost` as
fallback; as a function of `(metadata, fork)` it is pure by construction. -/
theorem base_gas_cost_c7 :
    ∀ (m : OpcodeMetadata) (fork : Fork),
      getBaseGasCost m fork = effectiveGasCostSpec m fork := by
  intro m fork
  unfold getBaseGasCost effectiveGasCostSpec
  rw [find?_eq_head?_of_filter, List.filter_reverse, List.head?_reverse]
  cases h : (m.gas_history.filter fun p => Fork.le p.1 fork).getLast? <;>
    simp [h]

/-- Claim C8: `consume_gas amount` fails exactly when `amount` exceeds
`gas_remaining`; on failure the whole context is left unchanged, and on
success `gas_remaining` is decremented by exactly `amount` (and nothing
else changes). -/
theorem consume_gas_c8 :
    ∀ (c : ExecutionContext) (amount : Nat),
      ((∃ e, (c.consumeGas amount).1 = Except.error e) ↔
        c.gas_remaining < amount) ∧
      (c.gas_remaining < amount → (c.consumeGas amount).2 = c) ∧
      (¬ c.gas_remaining < amount →
        (c.consumeGas amount).1 = Except.ok () ∧
        (c.consumeGas amount).2 =
          { c with gas_remaining := c.gas_remaining - amount }) := by
  intro c amount
  unfold ExecutionContext.consumeGas
  by_cases h : c.gas_remaining < amount <;> simp [h]

/-- Witness for C8: on the default context (1,000,000 gas) a 2,000,000
request fails and leaves the context unchanged; a 400 request succeeds and
leaves 999,600. -/
theorem consume_gas_c8_witness :
    (ExecutionContext.new.consumeGas 2000000).2 = ExecutionContext.new ∧
    (ExecutionContext.new.consumeGas 400).1 = Except.ok () ∧
    (ExecutionContext.new.consumeGas 400).2 =
      { ExecutionContext.new with gas_remaining := 999600 } := by
  refine ⟨(consume_gas_c8 _ _).2.1 (by decide), ?_, ?_⟩
  · exact ((consume_gas_c8 _ _).2.2 (by decide)).1
  · rw [((consume_gas_c8 ExecutionContext.new 400).2.2 (by decide)).2]
    decide

/-- Equality on `Except` values is decidable componentwise (used only to
let witnesses evaluate closed results by `decide`). -/
def Except.decEq {e a : Type} [DecidableEq e] [DecidableEq a] :
    (x y : Except e a) → Decidable (x = y)
  | .ok x, .ok y =>
    if h : x = y then .isTrue (by rw [h])
    else .isFalse (by intro hh; injection hh; contradiction)
  | .ok _, .error _ => .isFalse (by intro hh; exact Except.noConfusion hh)
  | .error _, .ok _ => .isFalse (by intro hh; exact Except.noConfusion hh)
  | .error x, .error y =>
    if h : x = y then .isTrue (by rw [h])
    else .isFalse (by intro hh; injection hh; contradiction)

instance {e a : Type} [DecidableEq e] [DecidableEq a] :
    DecidableEq (Except e a) := Except.decEq

theorem any_foldl_append {α : Type} (g : α → List (Nat × OpcodeMetadata))
    (q : Nat × OpcodeMetadata → Bool) (L : List α) :
    ∀ acc : List (Nat × OpcodeMetadata),
      (L.foldl (fun a f => a ++ g f) acc).any q =
        (acc.any q || L.any (fun f => (g f).any q)) := by
  induction L with
  | nil => intro acc; simp
  | cons f L ih =>
    intro acc
    simp only [List.foldl_cons, List.any_cons, ih, List.any_append,
      Bool.or_assoc]

theorem containsKey_getOpcodes_iff
    (tables : Fork → List (Nat × OpcodeMetadata)) (fork : Fork) (b : Nat) :
    containsKey (getOpcodes tables fork) b = true ↔
      ∃ f, f ∈ registeredForks ∧ Fork.le f fork = true ∧
        (tables f).any (fun p => p.1 == b) = true := by
  unfold containsKey getOpcodes
  rw [any_foldl_append]
  simp only [List.any_nil, Bool.false_or, List.any_eq_true, List.mem_filter]
  constructor
  · rintro ⟨f, ⟨hmem, hle⟩, hb⟩
    exact ⟨f, hmem, hle, hb⟩
  · rintro ⟨f, hmem, hle, hb⟩
    exact ⟨f, ⟨hmem, hle⟩, hb⟩

/-- Claim C6: for forks `F <= F'`, every opcode byte present in the
effective table `get_opcodes F` (the union of the own tables of all
registered forks at most `F`) is also present in `get_opcodes F'` —
opcodes never silently disappear in later forks. This holds for every
assignment of own tables to the registered forks. -/
theorem opcode_no_disappear_c6 :
    ∀ (tables : Fork → List (Nat × OpcodeMetadata)) (F F' : Fork) (b : Nat),
      Fork.le F F' = true →
      containsKey (getOpcodes tables F) b = true →
      containsKey (getOpcodes tables F') b = true := by
  intro tables F F' b hFF' hb
  rw [containsKey_getOpcodes_iff] at hb ⊢
  obtain ⟨f, hmem, hle, hbyte⟩ := hb
  exact ⟨f, hmem, Fork.le_trans hle hFF', hbyte⟩

/-- A one-entry own-table assignment used by the C6 witness: Frontier owns
opcode `0x01`, every other fork's own table is empty. -/
def testTables : Fork → List (Nat × OpcodeMetadata) := fun f =>
  if f = Fork.Frontier then [(0x01, mkMeta 0x01 3 [])] else []

/-- Witness for C6: opcode `0x01`, present at Frontier, is still present
in the effective table of Cancun. -/
theorem opcode_no_disappear_c6_witness :
    containsKey (getOpcodes testTables Fork.Cancun) 0x01 = true :=
  opcode_no_disappear_c6 testTables Fork.Frontier Fork.Cancun 0x01
    (by decide) (by decide)

/-- A context already at the maximum representable call depth of the `u8`
counter. -/
def ctxAtMaxDepth : ExecutionContext :=
  { ExecutionContext.new with call_depth := 255 }

/-- Counterexample to claim C9 as stated: at the maximum representable
depth 255, `enter_call` does not saturate — the 8-bit counter overflows
and the stored depth becomes 0 instead of staying at 255. -/
theorem call_depth_c9_counterexample :
    ctxAtMaxDepth.call_depth = 255 ∧
    (ctxAtMaxDepth.enterCall).call_depth = 0 ∧
    ¬ (ctxAtMaxDepth.enterCall).call_depth = 255 := by
  refine ⟨rfl, rfl, by decide⟩

/-- Claim C9 (amended): `exit_call` is a saturating decrement with floor 0
and never leaves the 8-bit range; `enter_call` adds one for depths below
255 but does not saturate — at 255 the `u8` increment overflows (wrapping
to 0 in release builds, a panic in debug builds), though the stored value
still stays in range. -/
theorem call_depth_c9_amended :
    ∀ c : ExecutionContext, c.call_depth < 256 →
      (c.enterCall).call_depth = (c.call_depth + 1) % 256 ∧
      (c.call_depth < 255 → (c.enterCall).call_depth = c.call_depth + 1) ∧
      (c.call_depth = 255 → (c.enterCall).call_depth = 0) ∧
      (c.enterCall).call_depth < 256 ∧
      (c.exitCall).call_depth = c.call_depth - 1 ∧
      (c.exitCall).call_depth < 256 := by
  intro c h
  unfold ExecutionContext.enterCall ExecutionContext.exitCall
  by_cases h0 : c.call_depth > 0 <;>
    simp [h0] <;> omega

/-- Witness for C9 (amended): from the fresh context (depth 0),
`enter_call` reaches depth 1 and `exit_call` stays at floor 0. -/
theorem call_depth_c9_witness :
    (ExecutionContext.new.enterCall).call_depth = 1 ∧
    (ExecutionContext.new.exitCall).call_depth = 0 := by
  refine ⟨?_, ?_⟩
  · have h := (call_depth_c9_amended ExecutionContext.new (by decide)).2.1
      (by decide)
    simpa using h
  · have h := (call_depth_c9_amended ExecutionContext.new (by decide)).2.2.2.2.1
    simpa using h

/-- Claim C10 (the code violates it): `update_context` on the
account-access opcode BALANCE (`0x31`) with exactly one operand indexes
`operands[1]` under a guard that only requires a non-empty operand list,
and panics (modelled as `none`); `analyze_sequence_gas` therefore panics
on the sequence `[(0x31, [0])]` even though the cost computation for that
entry succeeds. -/
theorem update_context_panic_c10 :
    updateContext ExecutionContext.new 0x31 [0] = none ∧
    analyzeSequenceGas testTable Fork.Berlin [(0x31, [0])] = none ∧
    calculateGasCost testTable Fork.Berlin 0x31 ExecutionContext.new [0] =
      Except.ok 2605 := by
  refine ⟨by decide, by decide, by decide⟩

theorem fromVecStorageKey_u64 (n : Nat) :
    fromVecStorageKey (u64ToBeBytes n) = fullKey32 n := rfl

theorem u64ToBeBytes_inj {a b : Nat} :
    u64ToBeBytes a = u64ToBeBytes b ↔ a % 2 ^ 64 = b % 2 ^ 64 := by
  unfold u64ToBeBytes
  simp only [List.cons.injEq, and_true]
  constructor
  · intro h
    omega
  · intro h
    rw [h]
    simp

theorem fullKey32_inj {a b : Nat} :
    fullKey32 a = fullKey32 b ↔ a % 2 ^ 64 = b % 2 ^ 64 := by
  unfold fullKey32
  rw [List.append_right_inj]
  exact u64ToBeBytes_inj

/-- Both storage-irrelevant fields of `expand_memory`. -/
theorem storageFields_expandMemory (c : ExecutionContext) (n : Nat) :
    (c.expandMemory n).accessed_storage_keys = c.accessed_storage_keys ∧
    (c.expandMemory n).current_address = c.current_address := by
  unfold ExecutionContext.expandMemory
  split <;> exact ⟨rfl, rfl⟩

/-- Effect of one `update_context` step on the warm-storage set: the
current address is never changed, and the set of warm slots grows exactly
by the slot marked by an `SLOAD`/`SSTORE` entry with a non-empty operand
list. -/
theorem updateContext_storage_effect (c : ExecutionContext) (op : Nat)
    (ops : List Nat) (c' : ExecutionContext)
    (h : updateContext c op ops = some c') :
    c'.current_address = c.current_address ∧
    ∀ a k, ((a, k) ∈ c'.accessed_storage_keys ↔
      (a, k) ∈ c.accessed_storage_keys ∨
        ((op = 0x54 ∨ op = 0x55) ∧ ops ≠ [] ∧ a = c.current_address ∧
          k = fromVecStorageKey (u64ToBeBytes (ops.headD 0)))) := by
  unfold updateContext at h
  split_ifs at h with h1 h2 h3 h4 h5 h6 h7 h8 h9 h10
  · injection h with h
    subst h
    refine ⟨rfl, fun a k => ?_⟩
    simp only [ExecutionContext.markStorageAccessed,
      ExecutionContext.mem_insertSet, Prod.mk.injEq]
    constructor
    · rintro (⟨ha, hk⟩ | hm)
      · exact Or.inr ⟨h1.1, h1.2, ha, hk⟩
      · exact Or.inl hm
    · rintro (hm | ⟨_, _, ha, hk⟩)
      · exact Or.inr hm
      · exact Or.inl ⟨ha, hk⟩
  · injection h with h
    subst h
    refine ⟨rfl, fun a k => ?_⟩
    constructor
    · exact fun hm => Or.inl hm
    · rintro (hm | ⟨hop, hne, _, _⟩)
      · exact hm
      · exact absurd ⟨hop, hne⟩ h1
  · cases hg : ops.get? 1 with
    | none => rw [hg] at h; exact absurd h (by simp)
    | some a0 =>
      rw [hg] at h
      injection h with h
      subst h
      refine ⟨rfl, fun a k => ?_⟩
      constructor
      · exact fun hm => Or.inl hm
      · rintro (hm | ⟨hop, hne, _, _⟩)
        · exact hm
        · exact absurd ⟨hop, hne⟩ h1
  · injection h with h
    subst h
    obtain ⟨hs, hc⟩ := storageFields_expandMemory c _
    refine ⟨hc, fun a k => ?_⟩
    rw [hs]
    constructor
    · exact fun hm => Or.inl hm
    · rintro (hm | ⟨hop, hne, _, _⟩)
      · exact hm
      · exact absurd ⟨hop, hne⟩ h1
  · injection h with h
    subst h
    obtain ⟨hs, hc⟩ := storageFields_expandMemory c _
    refine ⟨hc, fun a k => ?_⟩
    rw [hs]
    constructor
    · exact fun hm => Or.inl hm
    · rintro (hm | ⟨hop, hne, _, _⟩)
      · exact hm
      · exact absurd ⟨hop, hne⟩ h1
  · injection h with h
    subst h
    obtain ⟨hs, hc⟩ := storageFields_expandMemory c _
    refine ⟨hc, fun a k => ?_⟩
    rw [hs]
    constructor
    · exact fun hm => Or.inl hm
    · rintro (hm | ⟨hop, hne, _, _⟩)
      · exact hm
      · exact absurd ⟨hop, hne⟩ h1
  · injection h with h
    subst h
    obtain ⟨hs, hc⟩ := storageFields_expandMemory c _
    refine ⟨hc, fun a k => ?_⟩
    rw [hs]
    constructor
    · exact fun hm => Or.inl hm
    · rintro (hm | ⟨hop, hne, _, _⟩)
      · exact hm
      · exact absurd ⟨hop, hne⟩ h1
  · injection h with h
    subst h
    obtain ⟨hs, hc⟩ := storageFields_expandMemory c _
    refine ⟨hc, fun a k => ?_⟩
    rw [hs]
    constructor
    · exact fun hm => Or.inl hm
    · rintro (hm | ⟨hop, hne, _, _⟩)
      · exact hm
      · exact absurd ⟨hop, hne⟩ h1
  · injection h with h
    subst h
    obtain ⟨hs, hc⟩ := storageFields_expandMemory c _
    refine ⟨hc, fun a k => ?_⟩
    rw [hs]
    constructor
    · exact fun hm => Or.inl hm
    · rintro (hm | ⟨hop, hne, _, _⟩)
      · exact hm
      · exact absurd ⟨hop, hne⟩ h1
  · injection h with h
    subst h
    refine ⟨rfl, fun a k => ?_⟩
    constructor
    · exact fun hm => Or.inl hm
    · rintro (hm | ⟨hop, hne, _, _⟩)
      · exact hm
      · exact absurd ⟨hop, hne⟩ h1
  · injection h with h
    subst h
    refine ⟨rfl, fun a k => ?_⟩
    constructor
    · exact fun hm => Or.inl hm
    · rintro (hm | ⟨hop, hne, _, _⟩)
      · exact hm
      · exact absurd ⟨hop, hne⟩ h1

theorem storageTouched_nil (k : Nat) : storageTouched [] k = false := rfl

theorem storageTouched_cons (op : Nat) (ops : List Nat)
    (rest : List (Nat × List Nat)) (k : Nat) :
    storageTouched ((op, ops) :: rest) k = true ↔
      (((op = 0x54 ∨ op = 0x55) ∧ ops ≠ [] ∧
          ops.headD 0 % 2 ^ 64 = k % 2 ^ 64) ∨
        storageTouched rest k = true) := by
  simp only [storageTouched, List.any_cons, Bool.or_eq_true,
    Bool.and_eq_true, beq_iff_eq, Bool.not_eq_true', List.isEmpty_eq_false]
  tauto

/-- Warm-storage invariant of the sequence-analysis loop: after a prefix
runs to completion, the current address is unchanged and a slot keyed by
`k` is warm exactly when it was warm initially or some `SLOAD`/`SSTORE`
entry of the prefix touched `k`. -/
theorem runCtx_storage_inv (table : Nat → Option OpcodeMetadata)
    (fork : Fork) :
    ∀ (p : List (Nat × List Nat)) (c0 c : ExecutionContext),
      runCtx table fork c0 p = some (Except.ok c) →
      c.current_address = c0.current_address ∧
      ∀ k : Nat,
        ((c0.current_address, fullKey32 k) ∈ c.accessed_storage_keys ↔
          ((c0.current_address, fullKey32 k) ∈ c0.accessed_storage_keys ∨
            storageTouched p k = true)) := by
  intro p
  induction p with
  | nil =>
    intro c0 c h
    unfold runCtx at h
    injection h with h
    injection h with h
    subst h
    exact ⟨rfl, fun k => by simp [storageTouched]⟩
  | cons e rest ih =>
    obtain ⟨op, ops⟩ := e
    intro c0 c h
    unfold runCtx at h
    cases hc : calculateGasCost table fork op c0 ops with
    | error e0 =>
      rw [hc] at h
      exact absurd h (by simp)
    | ok g =>
      rw [hc] at h
      cases hu : updateContext c0 op ops with
      | none =>
        rw [hu] at h
        exact absurd h (by simp)
      | some c1 =>
        rw [hu] at h
        obtain ⟨haddr, hmem⟩ := ih c1 c h
        obtain ⟨haddr1, hmem1⟩ := updateContext_storage_effect c0 op ops c1 hu
        refine ⟨haddr.trans haddr1, fun k => ?_⟩
        rw [haddr1] at hmem
        rw [hmem k, hmem1 c0.current_address (fullKey32 k),
          storageTouched_cons]
        constructor
        · rintro ((hm | ⟨hop, hne, _, hk⟩) | ht)
          · exact Or.inl hm
          · refine Or.inr (Or.inl ⟨hop, hne, ?_⟩)
            rw [fromVecStorageKey_u64] at hk
            exact (Iff.mp fullKey32_inj hk).symm
          · exact Or.inr (Or.inr ht)
        · rintro (hm | ⟨hop, hne, hks⟩ | ht)
          · exact Or.inl (Or.inl hm)
          · refine Or.inl (Or.inr ⟨hop, hne, rfl, ?_⟩)
            rw [fromVecStorageKey_u64]
            exact Iff.mpr fullKey32_inj hks.symm
          · exact Or.inr ht

/-- Claim C1: on Berlin or later, an SLOAD during sequence analysis is
charged the cold surcharge 2100 exactly when no earlier `SLOAD`/`SSTORE`
of the run touched the key, and the warm surcharge 100 otherwise (the key
becomes warm only through the side effects of earlier entries, never
through its own charge); three consecutive SLOADs of one key therefore
carry surcharges 2100, 100, 100 (2300 in total); before Berlin the SLOAD
dynamic cost is the fixed 800. -/
theorem sload_warm_cold_c1 :
    (∀ (fork : Fork) (context : ExecutionContext) (operands : List Nat),
      Fork.le Fork.Berlin fork = false →
      calculateSloadCost fork context operands = Except.ok 800) ∧
    (∀ (table : Nat → Option OpcodeMetadata) (fork : Fork)
        (p : List (Nat × List Nat)) (c : ExecutionContext) (k : Nat)
        (rest : List Nat),
      Fork.le Fork.Berlin fork = true →
      runCtx table fork ExecutionContext.new p = some (Except.ok c) →
      calculateSloadCost fork c (k :: rest) =
        Except.ok (if storageTouched p k = true then 100 else 2100)) ∧
    (∀ (table : Nat → Option OpcodeMetadata) (fork : Fork)
        (m : OpcodeMetadata) (k : Nat),
      table 0x54 = some m → Fork.le Fork.Berlin fork = true →
      (analyzeSequenceGas table fork
          [(0x54, [k]), (0x54, [k]), (0x54, [k])]).map
        (Except.map (fun r => (r.total_gas, r.breakdown))) =
      some (Except.ok (21000 + 3 * getBaseGasCost m fork + 2300,
        [(0x54, getBaseGasCost m fork + 2100),
         (0x54, getBaseGasCost m fork + 100),
         (0x54, getBaseGasCost m fork + 100)]))) := by
  refine ⟨?_, ?_, ?_⟩
  · intro fork c ops hB
    simp [calculateSloadCost, hB]
  · intro table fork p c k rest hB hrun
    obtain ⟨haddr, hmem⟩ := runCtx_storage_inv table fork p
      ExecutionContext.new c hrun
    have hmem' := hmem k
    simp only [calculateSloadCost, hB, eq_self_iff_true, if_true]
    rw [haddr]
    by_cases ht : storageTouched p k = true
    · have hw : (ExecutionContext.new.current_address, fullKey32 k) ∈
          c.accessed_storage_keys := hmem'.mpr (Or.inr ht)
      simp [hB, ExecutionContext.isStorageWarm, hw, ht]
    · have hw : ¬ (ExecutionContext.new.current_address, fullKey32 k) ∈
          c.accessed_storage_keys := by
        intro hmm
        rcases hmem'.mp hmm with hmem0 | htt
        · simp [ExecutionContext.new] at hmem0
        · exact ht htt
      simp [hB, ExecutionContext.isStorageWarm, hw, ht]
  · intro table fork m k hm hB
    have hc1 : calculateGasCost table fork 0x54 ExecutionContext.new [k] =
        Except.ok (getBaseGasCost m fork + 2100) := by
      simp [calculateGasCost, hm, calculateDynamicCost, calculateSloadCost,
        hB, ExecutionContext.isStorageWarm, ExecutionContext.new, Except.map]
    have hu1 : updateContext ExecutionContext.new 0x54 [k] =
        some { ExecutionContext.new with accessed_storage_keys :=
          [(ExecutionContext.new.current_address, fullKey32 k)] } := by
      simp [updateContext, ExecutionContext.markStorageAccessed,
        ExecutionContext.insertSet, fromVecStorageKey_u64,
        ExecutionContext.new]
    have hc2 : calculateGasCost table fork 0x54
        { ExecutionContext.new with accessed_storage_keys :=
          [(ExecutionContext.new.current_address, fullKey32 k)] } [k] =
        Except.ok (getBaseGasCost m fork + 100) := by
      simp [calculateGasCost, hm, calculateDynamicCost, calculateSloadCost,
        hB, ExecutionContext.isStorageWarm, Except.map]
    have hins : ExecutionContext.insertSet
        (ExecutionContext.new.current_address, fullKey32 k)
        [(ExecutionContext.new.current_address, fullKey32 k)] =
        [(ExecutionContext.new.current_address, fullKey32 k)] := by
      unfold ExecutionContext.insertSet
      rw [if_pos (List.mem_singleton.mpr rfl)]
    have hu2 : updateContext
        { ExecutionContext.new with accessed_storage_keys :=
          [(ExecutionContext.new.current_address, fullKey32 k)] } 0x54 [k] =
        some { ExecutionContext.new with accessed_storage_keys :=
          [(ExecutionContext.new.current_address, fullKey32 k)] } := by
      simp only [updateContext, ExecutionContext.markStorageAccessed,
        fromVecStorageKey_u64]
      simp [hins]
    simp only [analyzeSequenceGas, runSeq, hc1, hu1, hc2, hu2]
    simp [Except.map, Prod.mk.injEq]
    omega

/-- Witness for C1: on Istanbul an SLOAD costs the flat 800; on Berlin a
first SLOAD of key 5 from the fresh context is charged cold (2100); a
three-SLOAD sequence on key 5 over a table with SLOAD base cost 5 totals
21000 + 3*5 + 2300 with breakdown 2105, 105, 105. -/
theorem sload_warm_cold_c1_witness :
    calculateSloadCost Fork.Istanbul ExecutionContext.new [] =
      Except.ok 800 ∧
    calculateSloadCost Fork.Berlin ExecutionContext.new [5] =
      Except.ok 2100 ∧
    (analyzeSequenceGas testTable Fork.Berlin
        [(0x54, [5]), (0x54, [5]), (0x54, [5])]).map
      (Except.map (fun r => (r.total_gas, r.breakdown))) =
    some (Except.ok (23315, [(0x54, 2105), (0x54, 105), (0x54, 105)])) := by
  refine ⟨?_, ?_, ?_⟩
  · exact sload_warm_cold_c1.1 Fork.Istanbul ExecutionContext.new []
      (by decide)
  · exact sload_warm_cold_c1.2.1 testTable Fork.Berlin [] ExecutionContext.new
      5 [] (by decide) rfl
  · exact sload_warm_cold_c1.2.2 testTable Fork.Berlin (mkMeta 0x54 5 []) 5
      (by decide) (by decide)

theorem runSeq_err_after (table : Nat → Option OpcodeMetadata) (fork : Fork)
    (op : Nat) (ops : List Nat) (err : String)
    (rest : List (Nat × List Nat)) :
    ∀ (p : List (Nat × List Nat)) (c0 c : ExecutionContext) (t : Nat)
      (bd : List (Nat × Nat)),
      runCtx table fork c0 p = some (Except.ok c) →
      calculateGasCost table fork op c ops = Except.error err →
      runSeq table fork c0 t bd (p ++ (op, ops) :: rest) =
        some (Except.error err) := by
  intro p
  induction p with
  | nil =>
    intro c0 c t bd hrun herr
    unfold runCtx at hrun
    injection hrun with hrun
    injection hrun with hrun
    subst hrun
    simp only [List.nil_append, runSeq, herr]
  | cons e p' ih =>
    intro c0 c t bd hrun herr
    obtain ⟨op0, ops0⟩ := e
    unfold runCtx at hrun
    cases hc : calculateGasCost table fork op0 c0 ops0 with
    | error e0 =>
      rw [hc] at hrun
      exact absurd hrun (by simp)
    | ok g =>
      rw [hc] at hrun
      cases hu : updateContext c0 op0 ops0 with
      | none =>
        rw [hu] at hrun
        exact absurd hrun (by simp)
      | some c1 =>
        rw [hu] at hrun
        simp only [List.cons_append, runSeq, hc, hu]
        exact ih c1 c (t + g) (bd ++ [(op0, g)]) hrun herr

/-- Claim C3: `analyze_sequence_gas` starts its running total at 21000,
processes the entries in order, and aborts at the first entry whose cost
computation errors, returning exactly that error; the failing entry's
context side effects (and all later entries) are never applied — the
error is computed against the context produced by the prefix alone and is
independent of everything after the failing entry. -/
theorem seq_first_error_c3 :
    (∀ (table : Nat → Option OpcodeMetadata) (fork : Fork),
      analyzeSequenceGas table fork [] =
        some (Except.ok ⟨21000, [], ExecutionContext.new⟩)) ∧
    (∀ (table : Nat → Option OpcodeMetadata) (fork : Fork)
        (p : List (Nat × List Nat)) (op : Nat) (ops : List Nat)
        (rest : List (Nat × List Nat)) (c : ExecutionContext) (err : String),
      runCtx table fork ExecutionContext.new p = some (Except.ok c) →
      calculateGasCost table fork op c ops = Except.error err →
      analyzeSequenceGas table fork (p ++ (op, ops) :: rest) =
        some (Except.error err)) := by
  constructor
  · intro table fork
    rfl
  · intro table fork p op ops rest c err hrun herr
    exact runSeq_err_after table fork op ops err rest p ExecutionContext.new
      c 21000 [] hrun herr

/-- Witness for C3: an SLOAD with no operand aborts the whole analysis
with the missing-operand error, regardless of the rest of the sequence. -/
theorem seq_first_error_c3_witness :
    analyzeSequenceGas testTable Fork.Berlin [(0x54, []), (0x01, [])] =
      some (Except.error "SLOAD requires storage key operand") :=
  seq_first_error_c3.2 testTable Fork.Berlin [] 0x54 [] [(0x01, [])]
    ExecutionContext.new "SLOAD requires storage key operand" rfl rfl

/-- Counterexample to claim C4 as stated: KECCAK256 (`0x20`) demands two
operands, yet `calculate_gas_cost` with an empty operand list returns a
successful cost (the base cost, dynamic surcharge 0) instead of a
missing-operand error. -/
theorem missing_operand_c4_counterexample :
    calculateGasCost testTable Fork.London 0x20 ExecutionContext.new [] =
      Except.ok 5 := by
  decide

/-- Claim C4 (amended): SLOAD (Berlin+), SSTORE, TLOAD/TSTORE (Cancun+),
MLOAD/MSTORE/MSTORE8, MCOPY (Cancun+), and the CALL family reject missing
operands with an error, which `calculate_gas_cost` propagates unchanged;
but KECCAK256, LOG0-LOG4, the copy opcodes, and CREATE/CREATE2 given too
few operands instead succeed with dynamic surcharge 0, so
`calculate_gas_cost` returns the base cost successfully. -/
theorem missing_operand_c4_amended :
    (∀ (table : Nat → Option OpcodeMetadata) (fork : Fork) (op : Nat)
        (context : ExecutionContext) (ops : List Nat) (m : OpcodeMetadata)
        (e : String), table op = some m →
      calculateDynamicCost fork op context ops = Except.error e →
      calculateGasCost table fork op context ops = Except.error e) ∧
    (∀ (table : Nat → Option OpcodeMetadata) (fork : Fork) (op : Nat)
        (context : ExecutionContext) (ops : List Nat) (m : OpcodeMetadata)
        (d : Nat), table op = some m →
      calculateDynamicCost fork op context ops = Except.ok d →
      calculateGasCost table fork op context ops =
        Except.ok (getBaseGasCost m fork + d)) ∧
    (∀ (fork : Fork) (context : ExecutionContext),
      Fork.le Fork.Berlin fork = true →
      ∃ e, calculateDynamicCost fork 0x54 context [] = Except.error e) ∧
    (∀ (fork : Fork) (context : ExecutionContext) (ops : List Nat),
      ops.length < 2 →
      ∃ e, calculateDynamicCost fork 0x55 context ops = Except.error e) ∧
    (∀ (fork : Fork) (context : ExecutionContext),
      Fork.le Fork.Cancun fork = true →
      ∃ e, calculateDynamicCost fork 0x5c context [] = Except.error e) ∧
    (∀ (fork : Fork) (context : ExecutionContext) (ops : List Nat),
      Fork.le Fork.Cancun fork = true → ops.length < 2 →
      ∃ e, calculateDynamicCost fork 0x5d context ops = Except.error e) ∧
    (∀ (fork : Fork) (op : Nat) (context : ExecutionContext),
      (op = 0x51 ∨ op = 0x52 ∨ op = 0x53) →
      ∃ e, calculateDynamicCost fork op context [] = Except.error e) ∧
    (∀ (fork : Fork) (context : ExecutionContext) (ops : List Nat),
      ops.length < 3 →
      ∃ e, calculateDynamicCost fork 0x5e context ops = Except.error e) ∧
    (∀ (fork : Fork) (op : Nat) (context : ExecutionContext)
        (ops : List Nat),
      (op = 0xf1 ∨ op = 0xf2 ∨ op = 0xf4 ∨ op = 0xfa) → ops.length < 7 →
      ∃ e, calculateDynamicCost fork op context ops = Except.error e) ∧
    (∀ (fork : Fork) (context : ExecutionContext) (ops : List Nat),
      ops.length < 2 →
      calculateDynamicCost fork 0x20 context ops = Except.ok 0) ∧
    (∀ (fork : Fork) (op : Nat) (context : ExecutionContext)
        (ops : List Nat),
      0xa0 ≤ op → op ≤ 0xa4 → ops.length < 2 →
      calculateDynamicCost fork op context ops = Except.ok 0) ∧
    (∀ (fork : Fork) (op : Nat) (context : ExecutionContext)
        (ops : List Nat),
      (op = 0x37 ∨ op = 0x39 ∨ op = 0x3e) → ops.length < 3 →
      calculateDynamicCost fork op context ops = Except.ok 0) ∧
    (∀ (fork : Fork) (op : Nat) (context : ExecutionContext)
        (ops : List Nat),
      (op = 0xf0 ∨ op = 0xf5) → ops.length < 3 →
      calculateDynamicCost fork op context ops = Except.ok 0) := by
  refine ⟨?_, ?_, ?_, ?_, ?_, ?_, ?_, ?_, ?_, ?_, ?_, ?_, ?_⟩
  · intro table fork op context ops m e hm hd
    unfold calculateGasCost
    rw [hm, hd]
    rfl
  · intro table fork op context ops m d hm hd
    unfold calculateGasCost
    rw [hm, hd]
    rfl
  · intro fork context hB
    exact ⟨"SLOAD requires storage key operand",
      by simp [calculateDynamicCost, calculateSloadCost, hB]⟩
  · intro fork context ops hlen
    exact ⟨"SSTORE requires key and value operands",
      by simp [calculateDynamicCost, calculateSstoreCost, hlen]⟩
  · intro fork context hC
    exact ⟨"TLOAD requires storage key operand",
      by simp [calculateDynamicCost, calculateTloadCost, hC]⟩
  · intro fork context ops hC hlen
    exact ⟨"TSTORE requires key and value operands",
      by simp [calculateDynamicCost, calculateTstoreCost, hC, hlen]⟩
  · intro fork op context hop
    rcases hop with rfl | rfl | rfl <;>
      exact ⟨"Memory operation requires offset operand",
        by simp [calculateDynamicCost, calculateMemoryCost]⟩
  · intro fork context ops hlen
    cases hC : Fork.le Fork.Cancun fork
    · exact ⟨"MCOPY not available before Cancun fork",
        by simp [calculateDynamicCost, calculateMcopyCost, hC]⟩
    · exact ⟨"MCOPY requires dst, src, and size operands",
        by simp [calculateDynamicCost, calculateMcopyCost, hC, hlen]⟩
  · intro fork op context ops hop hlen
    rcases hop with rfl | rfl | rfl | rfl <;>
      exact ⟨"CALL requires at least 7 operands",
        by simp [calculateDynamicCost, calculateCallCost, hlen]⟩
  · intro fork context ops hlen
    simp [calculateDynamicCost, calculateKeccak256Cost, hlen]
  · intro fork op context ops h1 h2 hlen
    interval_cases op <;>
      simp [calculateDynamicCost, calculateLogCost, hlen]
  · intro fork op context ops hop hlen
    rcases hop with rfl | rfl | rfl <;>
      simp [calculateDynamicCost, calculateCopyCost, hlen]
  · intro fork op context ops hop hlen
    rcases hop with rfl | rfl <;>
      simp [calculateDynamicCost, calculateCreateCost, hlen]

/-- Witness for C4 (amended): each clause applied at a concrete input. -/
theorem missing_operand_c4_witness :
    calculateGasCost testTable Fork.Berlin 0x54 ExecutionContext.new [] =
      Except.error "SLOAD requires storage key operand" ∧
    calculateGasCost testTable Fork.Berlin 0x20 ExecutionContext.new [] =
      Except.ok 5 ∧
    (∃ e, calculateDynamicCost Fork.Berlin 0x54 ExecutionContext.new [] =
      Except.error e) ∧
    (∃ e, calculateDynamicCost Fork.Berlin 0x55 ExecutionContext.new [1] =
      Except.error e) ∧
    (∃ e, calculateDynamicCost Fork.Cancun 0x5c ExecutionContext.new [] =
      Except.error e) ∧
    (∃ e, calculateDynamicCost Fork.Cancun 0x5d ExecutionContext.new [1] =
      Except.error e) ∧
    (∃ e, calculateDynamicCost Fork.Berlin 0x52 ExecutionContext.new [] =
      Except.error e) ∧
    (∃ e, calculateDynamicCost Fork.Cancun 0x5e ExecutionContext.new [1, 2] =
      Except.error e) ∧
    (∃ e, calculateDynamicCost Fork.Berlin 0xf1 ExecutionContext.new
      [1, 2, 3] = Except.error e) ∧
    calculateDynamicCost Fork.Berlin 0x20 ExecutionContext.new [7] =
      Except.ok 0 ∧
    calculateDynamicCost Fork.Berlin 0xa2 ExecutionContext.new [7] =
      Except.ok 0 ∧
    calculateDynamicCost Fork.Berlin 0x37 ExecutionContext.new [] =
      Except.ok 0 ∧
    calculateDynamicCost Fork.Shanghai 0xf0 ExecutionContext.new [] =
      Except.ok 0 := by
  refine ⟨?_, ?_, ?_, ?_, ?_, ?_, ?_, ?_, ?_, ?_, ?_, ?_, ?_⟩
  · exact missing_operand_c4_amended.1 testTable Fork.Berlin 0x54
      ExecutionContext.new [] (mkMeta 0x54 5 [])
      "SLOAD requires storage key operand" (by decide) (by decide)
  · exact missing_operand_c4_amended.2.1 testTable Fork.Berlin 0x20
      ExecutionContext.new [] (mkMeta 0x20 5 []) 0 (by decide) (by decide)
  · exact missing_operand_c4_amended.2.2.1 Fork.Berlin ExecutionContext.new
      (by decide)
  · exact missing_operand_c4_amended.2.2.2.1 Fork.Berlin
      ExecutionContext.new [1] (by decide)
  · exact missing_operand_c4_amended.2.2.2.2.1 Fork.Cancun
      ExecutionContext.new (by decide)
  · exact missing_operand_c4_amended.2.2.2.2.2.1 Fork.Cancun
      ExecutionContext.new [1] (by decide) (by decide)
  · exact missing_operand_c4_amended.2.2.2.2.2.2.1 Fork.Berlin 0x52
      ExecutionContext.new (Or.inr (Or.inl rfl))
  · exact missing_operand_c4_amended.2.2.2.2.2.2.2.1 Fork.Cancun
      ExecutionContext.new [1, 2] (by decide)
  · exact missing_operand_c4_amended.2.2.2.2.2.2.2.2.1 Fork.Berlin 0xf1
      ExecutionContext.new [1, 2, 3] (Or.inl rfl) (by decide)
  · exact missing_operand_c4_amended.2.2.2.2.2.2.2.2.2.1 Fork.Berlin
      ExecutionContext.new [7] (by decide)
  · exact missing_operand_c4_amended.2.2.2.2.2.2.2.2.2.2.1 Fork.Berlin 0xa2
      ExecutionContext.new [7] (by decide) (by decide) (by decide)
  · exact missing_operand_c4_amended.2.2.2.2.2.2.2.2.2.2.2.1 Fork.Berlin
      0x37 ExecutionContext.new [] (Or.inl rfl) (by decide)
  · exact missing_operand_c4_amended.2.2.2.2.2.2.2.2.2.2.2.2 Fork.Shanghai
      0xf0 ExecutionContext.new [] (Or.inl rfl) (by decide)

end Eot
